import Mathlib

/-!
Verification of the constraint-compiler core of the slingshot repository
(zkvm/src/constraints.rs): commitments, expressions, constraint flattening
into an external R1CS engine, and the verify entry point.

The external collaborators (the bulletproofs R1CS engine, the Pedersen
commitment primitive and the ScalarWitness value type) are out of scope of
the repository core and are modelled from the spec at their interface:
the engine is an explicit state (allocated gates, registered linear
constraints, challenge counter) together with an oracle for the
transcript-derived challenges and an acceptance predicate for multiplier
allocations; field scalars are an arbitrary decidable field.
-/

set_option linter.unusedSectionVars false

namespace ZkVM

variable {F : Type} [Field F] [DecidableEq F]

/-- Modelled from the spec: the external witness value type (a signed integer or
an opaque field scalar) is out of scope of the core and is represented as an
opaque field element. -/
abbrev ScalarWitness (F : Type) : Type := F

/-- Conversion of a witness value to a raw scalar; the identity in this model. -/
def ScalarWitness.to_scalar (x : ScalarWitness F) : F := x

namespace R1CS

/-- Modelled from the spec: low-level wire references of the external R1CS engine:
committed wires, multiplier left/right/output wires, and the reserved one wire. -/
inductive Variable : Type
  | Committed (i : Nat)
  | MultiplierLeft (i : Nat)
  | MultiplierRight (i : Nat)
  | MultiplierOutput (i : Nat)
  | One
deriving DecidableEq

/-- Modelled from the spec: a linear combination of wires, kept as the formal
list of (wire, coefficient) terms exactly as the external engine keeps it. -/
abbrev LinearCombination (F : Type) : Type := List (Variable × F)

/-- Linear combination consisting of a single wire with coefficient 1. -/
def LinearCombination.ofVar (v : Variable) : LinearCombination F := [(v, 1)]

/-- Linear combination consisting of the reserved one wire scaled by a constant. -/
def LinearCombination.ofScalar (a : F) : LinearCombination F := [(Variable.One, a)]

/-- Negation of a linear combination: negate every coefficient. -/
def LinearCombination.neg (a : LinearCombination F) : LinearCombination F :=
  a.map fun p => (p.1, -p.2)

/-- Addition of linear combinations: append the term lists. -/
def LinearCombination.add (a b : LinearCombination F) : LinearCombination F := a ++ b

/-- Subtraction of linear combinations: append the negated terms. -/
def LinearCombination.sub (a b : LinearCombination F) : LinearCombination F :=
  LinearCombination.add a (LinearCombination.neg b)

/-- Scaling of a linear combination by a scalar. -/
def LinearCombination.smul (z : F) (a : LinearCombination F) : LinearCombination F :=
  a.map fun p => (p.1, z * p.2)

end R1CS

/-- Error reported by the external R1CS engine when it rejects an allocation or
registration. -/
inductive R1CSError : Type
  | rejected
deriving DecidableEq

/-- Error type of the VM; verify wraps engine errors into this type. -/
inductive VMError : Type
  | R1CSError (e : R1CSError)
deriving DecidableEq

/-- Record of one multiplication gate allocated in the external engine: either
via multiply, with the two explicit input linear combinations fed to the left
and right wires, or via allocate_multiplier with an optional (left, right)
wire assignment. -/
inductive GateAlloc (F : Type) : Type
  | multiply (left right : R1CS.LinearCombination F)
  | allocMult (assignment : Option (F × F))
deriving DecidableEq

/-- Modelled from the spec: observable state of the external R1CS engine: the
allocated multiplication gates, the registered linear constraints (each one
enforced to equal zero), and how many verifier challenges have been drawn. -/
structure CSState (F : Type) : Type where
  gates : List (GateAlloc F)
  constraints : List (R1CS.LinearCombination F)
  challengeCtr : Nat
deriving DecidableEq

/-- Modelled from the spec: the nondeterministic part of the external engine.
The oracle gives the transcript-derived pseudorandom challenge for each draw
index; accept decides whether the i-th multiplier allocation is accepted
(engine resource limits). -/
structure Engine (F : Type) : Type where
  oracle : Nat → F
  accept : Nat → Bool

/-- Engine operation: register a linear constraint (equal to zero). -/
def CSState.constrain (s : CSState F) (lc : R1CS.LinearCombination F) : CSState F :=
  { s with constraints := s.constraints ++ [lc] }

/-- Engine operation: allocate one multiplication gate whose left and right
wires are bound to the two given linear combinations; returns the three fresh
wires. -/
def CSState.multiply (s : CSState F) (left right : R1CS.LinearCombination F) :
    (R1CS.Variable × R1CS.Variable × R1CS.Variable) × CSState F :=
  ((R1CS.Variable.MultiplierLeft s.gates.length,
     R1CS.Variable.MultiplierRight s.gates.length,
     R1CS.Variable.MultiplierOutput s.gates.length),
   { s with gates := s.gates ++ [GateAlloc.multiply left right] })

/-- Engine operation: allocate one multiplication gate with an optional secret
(left, right) wire assignment; the engine may reject the allocation. -/
def CSState.allocate_multiplier (E : Engine F) (assignment : Option (F × F)) (s : CSState F) :
    Except R1CSError (R1CS.Variable × R1CS.Variable × R1CS.Variable) × CSState F :=
  if E.accept s.gates.length then
    ((Except.ok (R1CS.Variable.MultiplierLeft s.gates.length,
        R1CS.Variable.MultiplierRight s.gates.length,
        R1CS.Variable.MultiplierOutput s.gates.length)),
     { s with gates := s.gates ++ [GateAlloc.allocMult assignment] })
  else (Except.error R1CSError.rejected, s)

/-- Engine operation: draw a verifier challenge bound to a domain label, only
available inside the deferred randomized phase. -/
def CSState.challenge_scalar (E : Engine F) (_label : String) (s : CSState F) : F × CSState F :=
  (E.oracle s.challengeCtr, { s with challengeCtr := s.challengeCtr + 1 })

/-- Domain label used by the And branch of flattening. -/
def andChallengeLabel : String := "ZkVM.verify.and-challenge"

/-- Modelled from the spec: opaque compressed group element of the external
codec; the concrete elliptic-curve group is out of scope. -/
abbrev CompressedRistretto (F : Type) : Type := F × F

/-- Modelled from the spec: the external Pedersen commitment primitive
commit(value, blinding) with default generators. The concrete group is out of
scope, so the committed pair stands in for the resulting compressed point. -/
def pedersenCommit (value blinding : F) : CompressedRistretto F := (value, blinding)

/-- Secret underlying an open commitment: committed value and blinding factor. -/
structure CommitmentWitness (F : Type) : Type where
  value : ScalarWitness F
  blinding : F
deriving DecidableEq

/-- Open or closed Pedersen commitment. -/
inductive Commitment (F : Type) : Type
  | Closed (x : CompressedRistretto F)
  | Open (w : CommitmentWitness F)
deriving DecidableEq

/-- Compressed point of an open commitment: the Pedersen commitment to its
value under its blinding factor, with default generators. -/
def CommitmentWitness.to_point (w : CommitmentWitness F) : CompressedRistretto F :=
  pedersenCommit (ScalarWitness.to_scalar w.value) w.blinding

/-- Compressed point of a commitment, defined for both variants. -/
def Commitment.to_point : Commitment F → CompressedRistretto F
  | Commitment.Closed x => x
  | Commitment.Open w => CommitmentWitness.to_point w

/-- Number of bytes needed to serialize a commitment. -/
def Commitment.serialized_length (_c : Commitment F) : Nat := 32

/-- Open commitment with a zero blinding factor. -/
def Commitment.unblinded (x : ScalarWitness F) : Commitment F :=
  Commitment.Open { value := x, blinding := 0 }

/-- Open commitment with a caller-supplied blinding factor. -/
def Commitment.blinded_with_factor (x : ScalarWitness F) (blinding : F) : Commitment F :=
  Commitment.Open { value := x, blinding := blinding }

/-- Secrets of a commitment: the committed value and the blinding factor;
none for a closed commitment. -/
def Commitment.witness : Commitment F → Option (ScalarWitness F × F)
  | Commitment.Closed _ => none
  | Commitment.Open w => some (w.value, w.blinding)

/-- Committed value without the blinding factor; none for a closed commitment. -/
def Commitment.assignment : Commitment F → Option (ScalarWitness F)
  | Commitment.Closed _ => none
  | Commitment.Open w => some w.value

/-- Expression: a constant, or a linear combination of R1CS wires carrying an
optional secret assignment. -/
inductive Expression (F : Type) : Type
  | Constant (a : ScalarWitness F)
  | LinearCombination (terms : List (R1CS.Variable × F)) (assignment : Option (ScalarWitness F))
deriving DecidableEq

/-- Known assignment of an expression, or none when unknown. -/
def Expression.eval : Expression F → Option (ScalarWitness F)
  | Expression.Constant a => some a
  | Expression.LinearCombination _ a =>
    match a with
    | some a0 => some a0
    | none => none

/-- Lowering of an expression to an engine-level linear combination. -/
def Expression.to_r1cs_lc : Expression F → R1CS.LinearCombination F
  | Expression.Constant a => R1CS.LinearCombination.ofScalar (ScalarWitness.to_scalar a)
  | Expression.LinearCombination terms _ => terms

/-- Lift a witness value to a constant expression. -/
def Expression.constant (a : ScalarWitness F) : Expression F := Expression.Constant a

/-- Negation of an expression: negate the constant, or negate every term
coefficient and the assignment of a linear combination. -/
def Expression.neg : Expression F → Expression F
  | Expression.Constant a => Expression.Constant (-a)
  | Expression.LinearCombination terms assignment =>
    Expression.LinearCombination (terms.map fun p => (p.1, -p.2)) (assignment.map fun a => -a)

/-- Addition of expressions. A constant combined with a linear combination
becomes an ordinary term on the reserved one wire (prepended on the left,
appended on the right); assignments combine when both are known and propagate
unknown otherwise. -/
def Expression.add : Expression F → Expression F → Expression F
  | Expression.Constant l, Expression.Constant r => Expression.Constant (l + r)
  | Expression.Constant l, Expression.LinearCombination right_terms right_assignment =>
    Expression.LinearCombination ((R1CS.Variable.One, l) :: right_terms)
      (right_assignment.map fun r => l + r)
  | Expression.LinearCombination left_terms left_assignment, Expression.Constant r =>
    Expression.LinearCombination (left_terms ++ [(R1CS.Variable.One, r)])
      (left_assignment.map fun l => l + r)
  | Expression.LinearCombination left_terms left_assignment,
      Expression.LinearCombination right_terms right_assignment =>
    Expression.LinearCombination (left_terms ++ right_terms)
      (left_assignment.bind fun l => right_assignment.map fun r => l + r)

/-- Multiplication of expressions. Constant times constant folds; constant
times linear combination scales the coefficients and the assignment without a
gate; linear times linear allocates exactly one multiplication gate and
returns its output wire as a fresh single-term linear combination. -/
def Expression.multiply : Expression F → Expression F → CSState F → Expression F × CSState F
  | Expression.Constant left, Expression.Constant right, s =>
    (Expression.Constant (left * right), s)
  | Expression.Constant l, Expression.LinearCombination right_terms right_assignment, s =>
    (Expression.LinearCombination
      (right_terms.map fun p => (p.1, p.2 * ScalarWitness.to_scalar l))
      (right_assignment.map fun r => r * l), s)
  | Expression.LinearCombination left_terms left_assignment, Expression.Constant r, s =>
    (Expression.LinearCombination
      (left_terms.map fun p => (p.1, p.2 * ScalarWitness.to_scalar r))
      (left_assignment.map fun l => l * r), s)
  | Expression.LinearCombination left_terms left_assignment,
      Expression.LinearCombination right_terms right_assignment, s =>
    let mo := CSState.multiply s left_terms right_terms
    (Expression.LinearCombination [(mo.1.2.2, 1)]
      (match left_assignment, right_assignment with
       | some l, some r => some (l * r)
       | _, _ => none),
     mo.2)

/-- Whether some linear combination inside the expression has an unknown
assignment. -/
def Expression.hasUnknown : Expression F → Bool
  | Expression.Constant _ => false
  | Expression.LinearCombination _ a => a.isNone

/-- Constraint: a boolean-valued tree of equalities, conjunctions,
disjunctions and negations over expressions. -/
inductive Constraint (F : Type) : Type
  | Eq (e1 e2 : Expression F)
  | And (c1 c2 : Constraint F)
  | Or (c1 c2 : Constraint F)
  | Not (c1 : Constraint F)
deriving DecidableEq

/-- Whether some expression inside the constraint tree has an unknown
assignment. -/
def Constraint.hasUnknown : Constraint F → Bool
  | Constraint.Eq e1 e2 => Expression.hasUnknown e1 || Expression.hasUnknown e2
  | Constraint.And c1 c2 => Constraint.hasUnknown c1 || Constraint.hasUnknown c2
  | Constraint.Or c1 c2 => Constraint.hasUnknown c1 || Constraint.hasUnknown c2
  | Constraint.Not c1 => Constraint.hasUnknown c1

/-- Flattening of a constraint tree into one linear combination plus an
optional secret assignment, threading the engine state. Eq takes the
difference of the two lowered expressions; And draws one challenge z and
combines the children as a + z * b; Or allocates one gate multiplying the
children; Not allocates two gates and registers four linear constraints
realizing the zero-test gadget. -/
def Constraint.flatten (E : Engine F) :
    Constraint F → CSState F →
      Except R1CSError (R1CS.LinearCombination F × Option F) × CSState F
  | Constraint.Eq expr1 expr2, s =>
    let assignment := (Expression.eval expr1).bind fun x =>
      (Expression.eval expr2).map fun y => ScalarWitness.to_scalar (x - y)
    ((Except.ok (R1CS.LinearCombination.sub (Expression.to_r1cs_lc expr1)
        (Expression.to_r1cs_lc expr2), assignment)), s)
  | Constraint.And c1 c2, s =>
    match Constraint.flatten E c1 s with
    | (Except.error e, s1) => (Except.error e, s1)
    | (Except.ok (a, aAssg), s1) =>
      match Constraint.flatten E c2 s1 with
      | (Except.error e, s2) => (Except.error e, s2)
      | (Except.ok (b, bAssg), s2) =>
        let zs := CSState.challenge_scalar E andChallengeLabel s2
        let assignment := aAssg.bind fun a0 => bAssg.map fun b0 => a0 + zs.1 * b0
        ((Except.ok (R1CS.LinearCombination.add a (R1CS.LinearCombination.smul zs.1 b),
            assignment)), zs.2)
  | Constraint.Or c1 c2, s =>
    match Constraint.flatten E c1 s with
    | (Except.error e, s1) => (Except.error e, s1)
    | (Except.ok (a, aAssg), s1) =>
      match Constraint.flatten E c2 s1 with
      | (Except.error e, s2) => (Except.error e, s2)
      | (Except.ok (b, bAssg), s2) =>
        let mo := CSState.multiply s2 a b
        let assignment := aAssg.bind fun a0 => bAssg.map fun b0 => a0 * b0
        ((Except.ok (R1CS.LinearCombination.ofVar mo.1.2.2, assignment)), mo.2)
  | Constraint.Not c1, s =>
    match Constraint.flatten E c1 s with
    | (Except.error e, s1) => (Except.error e, s1)
    | (Except.ok (xLc, xAssg), s1) =>
      let assgs : Option (F × F) × Option (F × F) × Option F :=
        match xAssg with
        | some x =>
          let y : F := if x = 0 then 1 else 0
          let w : F := (if x = 0 then 1 else x)⁻¹
          (some (x, y), some (x, w), some y)
        | none => (none, none, none)
      match CSState.allocate_multiplier E assgs.1 s1 with
      | (Except.error e, s2) => (Except.error e, s2)
      | (Except.ok (l1, r1, o1), s2) =>
        match CSState.allocate_multiplier E assgs.2.1 s2 with
        | (Except.error e, s3) => (Except.error e, s3)
        | (Except.ok (l2, _r2, o2), s3) =>
          let s4 := CSState.constrain s3
            (R1CS.LinearCombination.sub (R1CS.LinearCombination.ofVar l1) xLc)
          let s5 := CSState.constrain s4
            (R1CS.LinearCombination.sub (R1CS.LinearCombination.ofVar l1)
              (R1CS.LinearCombination.ofVar l2))
          let s6 := CSState.constrain s5 (R1CS.LinearCombination.ofVar o1)
          let s7 := CSState.constrain s6
            (R1CS.LinearCombination.add
              (R1CS.LinearCombination.sub (R1CS.LinearCombination.ofVar o2)
                (R1CS.LinearCombination.ofScalar 1))
              (R1CS.LinearCombination.ofVar r1))
          ((Except.ok (R1CS.LinearCombination.ofVar r1, assgs.2.2)), s7)

/-- Deferred closure registered by verify: flatten the constraint, then
register the flattened combination as a linear constraint. A flattening error
propagates and the final registration is skipped. -/
def Constraint.verifyClosure (E : Engine F) (c : Constraint F) (s : CSState F) :
    Except R1CSError Unit × CSState F :=
  match Constraint.flatten E c s with
  | (Except.ok (expr, _), s1) => (Except.ok (), CSState.constrain s1 expr)
  | (Except.error e, s1) => (Except.error e, s1)

/-- State of a proving round: the engine state plus the queue of deferred
randomized computations, each recorded by the constraint it will flatten. -/
structure ProverState (F : Type) : Type where
  cs : CSState F
  deferred : List (Constraint F)

/-- Entry point behind the verify instruction. Modelled from the spec: the
engine call specify_randomized_constraints registers the deferred computation
without running it; the engine runs it only after all commitments of the
round are fixed. Registration itself touches no gate, no linear constraint
and no challenge. -/
def Constraint.verify (c : Constraint F) (ps : ProverState F) :
    Except VMError Unit × ProverState F :=
  ((Except.ok ()), { ps with deferred := ps.deferred ++ [c] })

/-- Modelled from the spec: execution of one deferred computation by the
external engine after commitments are fixed. If the deferred computation
fails, the engine reports rejection for the whole verify call and the
partially built randomized state is not observable by the caller. -/
def engineRunDeferred (E : Engine F) (c : Constraint F) (s : CSState F) :
    Except R1CSError Unit × CSState F :=
  match Constraint.verifyClosure E c s with
  | (Except.ok _, s1) => (Except.ok (), s1)
  | (Except.error e, _) => (Except.error e, s)

/-- Projection of a flattening run onto its returned assignment: some oa on
success, none when the engine rejected an allocation. -/
def flattenAssignment (E : Engine F) (c : Constraint F) (s : CSState F) : Option (Option F) :=
  match Constraint.flatten E c s with
  | (Except.ok (_, oa), _) => some oa
  | (Except.error _, _) => none

instance fact_prime_five : Fact (Nat.Prime 5) := ⟨by norm_num⟩

/-- Concrete engine over ZMod 5 that accepts every allocation and answers
every challenge with 0. -/
def E0 : Engine (ZMod 5) := { oracle := fun _ => 0, accept := fun _ => true }

/-- Concrete engine over ZMod 5 that rejects every multiplier allocation. -/
def Ereject : Engine (ZMod 5) := { oracle := fun _ => 0, accept := fun _ => false }

/-- Empty concrete engine state over ZMod 5. -/
def s0 : CSState (ZMod 5) := { gates := [], constraints := [], challengeCtr := 0 }

/-- Concrete constraint over ZMod 5 stating that the constant a equals 0. -/
def cK (a : ZMod 5) : Constraint (ZMod 5) :=
  Constraint.Eq (Expression.Constant a) (Expression.Constant 0)

/-- Linear combination produced by flattening cK a. -/
def lcK (a : ZMod 5) : R1CS.LinearCombination (ZMod 5) :=
  R1CS.LinearCombination.sub (Expression.to_r1cs_lc (Expression.Constant a))
    (Expression.to_r1cs_lc (Expression.Constant 0))

/-- C6: flattening Eq(e1, e2) returns the linear combination e1 - e2 with no
gate allocation and no challenge draw (the engine state is returned
unchanged); the assignment is the difference of the two evaluations when both
are known (and unknown otherwise, by the Option bind), and it equals zero
exactly when the two evaluations agree. -/
theorem Constraint.flatten_Eq_spec (E : Engine F) (e1 e2 : Expression F) (s : CSState F) :
    Constraint.flatten E (Constraint.Eq e1 e2) s =
      ((Except.ok (R1CS.LinearCombination.sub (Expression.to_r1cs_lc e1)
          (Expression.to_r1cs_lc e2),
        (Expression.eval e1).bind fun x =>
          (Expression.eval e2).map fun y => ScalarWitness.to_scalar (x - y))), s)
    ∧ (∀ x y : F, Expression.eval e1 = some x → Expression.eval e2 = some y →
        (((Expression.eval e1).bind fun x0 =>
            (Expression.eval e2).map fun y0 => ScalarWitness.to_scalar (x0 - y0)) = some 0
          ↔ x = y)) := by
  refine ⟨rfl, ?_⟩
  intro x y hx hy
  simp [hx, hy, ScalarWitness.to_scalar, sub_eq_zero]

/-- Witness for C6 at e1 = e2 = constant 3 over ZMod 5. -/
theorem Constraint.flatten_Eq_spec_witness :
    Constraint.flatten E0
        (Constraint.Eq (Expression.Constant (3 : ZMod 5)) (Expression.Constant 3)) s0 =
      ((Except.ok (R1CS.LinearCombination.sub
          (Expression.to_r1cs_lc (Expression.Constant (3 : ZMod 5)))
          (Expression.to_r1cs_lc (Expression.Constant 3)),
        (Expression.eval (Expression.Constant (3 : ZMod 5))).bind fun x =>
          (Expression.eval (Expression.Constant (3 : ZMod 5))).map fun y =>
            ScalarWitness.to_scalar (x - y))), s0)
    ∧ (((Expression.eval (Expression.Constant (3 : ZMod 5))).bind fun x0 =>
          (Expression.eval (Expression.Constant (3 : ZMod 5))).map fun y0 =>
            ScalarWitness.to_scalar (x0 - y0)) = some 0
        ↔ (3 : ZMod 5) = 3) :=
  ⟨(Constraint.flatten_Eq_spec E0 (Expression.Constant 3) (Expression.Constant 3) s0).1,
   (Constraint.flatten_Eq_spec E0 (Expression.Constant 3) (Expression.Constant 3) s0).2
     3 3 rfl rfl⟩

/-- C7: multiplying two constants allocates no gate and folds the product;
multiplying a constant with a linear combination (in either order) allocates
no gate, scaling every coefficient and the assignment by the constant;
multiplying two linear combinations allocates exactly one multiplication
gate fed with the two term lists and returns the fresh output wire as a
single-term linear combination whose assignment is the product of the two
assignments when both are known and unknown otherwise. -/
theorem Expression.multiply_gate_minimality :
    (∀ (l r : ScalarWitness F) (s : CSState F),
      Expression.multiply (Expression.Constant l) (Expression.Constant r) s =
        (Expression.Constant (l * r), s))
    ∧ (∀ (l : ScalarWitness F) (ts : List (R1CS.Variable × F))
        (a : Option (ScalarWitness F)) (s : CSState F),
      Expression.multiply (Expression.Constant l) (Expression.LinearCombination ts a) s =
        (Expression.LinearCombination (ts.map fun p => (p.1, p.2 * ScalarWitness.to_scalar l))
          (a.map fun r => r * l), s))
    ∧ (∀ (r : ScalarWitness F) (ts : List (R1CS.Variable × F))
        (a : Option (ScalarWitness F)) (s : CSState F),
      Expression.multiply (Expression.LinearCombination ts a) (Expression.Constant r) s =
        (Expression.LinearCombination (ts.map fun p => (p.1, p.2 * ScalarWitness.to_scalar r))
          (a.map fun l0 => l0 * r), s))
    ∧ (∀ (lt rt : List (R1CS.Variable × F)) (la ra : Option (ScalarWitness F)) (s : CSState F),
      Expression.multiply (Expression.LinearCombination lt la)
          (Expression.LinearCombination rt ra) s =
        (Expression.LinearCombination [(R1CS.Variable.MultiplierOutput s.gates.length, 1)]
          (match la, ra with
           | some l0, some r0 => some (l0 * r0)
           | _, _ => none),
         { s with gates := s.gates ++ [GateAlloc.multiply lt rt] })) :=
  ⟨fun _ _ _ => rfl, fun _ _ _ _ => rfl, fun _ _ _ _ => rfl, fun _ _ _ _ _ => rfl⟩

/-- C8: blinded_with_factor(v, r).to_point is exactly the Pedersen commitment
to v under blinding r; its witness is exactly (v, r) and its assignment is v;
a closed commitment returns none from both witness and assignment. -/
theorem Commitment.roundtrip_spec :
    (∀ v r : F,
      Commitment.to_point (Commitment.blinded_with_factor v r) = pedersenCommit v r
      ∧ Commitment.witness (Commitment.blinded_with_factor v r) = some (v, r)
      ∧ Commitment.assignment (Commitment.blinded_with_factor v r) = some v)
    ∧ (∀ x : CompressedRistretto F,
      Commitment.witness (Commitment.Closed x) = none
      ∧ Commitment.assignment (Commitment.Closed x) = none) :=
  ⟨fun _ _ => ⟨rfl, rfl, rfl⟩, fun _ => ⟨rfl, rfl⟩⟩

/-- C2: given the two child flattening results (a, some av) and (b, some bv),
flattening And(c1, c2) draws exactly one challenge z (the counter advances by
one and the gate list is untouched, as shown by the returned state record)
and returns combination a + z * b with assignment av + z * bv; moreover the
assignment is zero for every possible challenge value exactly when both child
assignments are zero. -/
theorem Constraint.flatten_And_spec (E : Engine F) (c1 c2 : Constraint F)
    (s s1 s2 : CSState F) (a b : R1CS.LinearCombination F) (av bv : F)
    (h1 : Constraint.flatten E c1 s = ((Except.ok (a, some av)), s1))
    (h2 : Constraint.flatten E c2 s1 = ((Except.ok (b, some bv)), s2)) :
    Constraint.flatten E (Constraint.And c1 c2) s =
      ((Except.ok (R1CS.LinearCombination.add a
          (R1CS.LinearCombination.smul (E.oracle s2.challengeCtr) b),
        some (av + E.oracle s2.challengeCtr * bv))),
       { s2 with challengeCtr := s2.challengeCtr + 1 })
    ∧ ((∀ z : F, av + z * bv = 0) ↔ (av = 0 ∧ bv = 0)) := by
  constructor
  · simp only [Constraint.flatten, h1, h2, CSState.challenge_scalar]
    rfl
  · constructor
    · intro h
      have h0 := h 0
      rw [zero_mul, add_zero] at h0
      have hone := h 1
      rw [one_mul, h0, zero_add] at hone
      exact ⟨h0, hone⟩
    · rintro ⟨ha, hb⟩ z
      rw [ha, hb, mul_zero, add_zero]

/-- Witness for C2 over ZMod 5 with children cK 3 and cK 0. -/
theorem Constraint.flatten_And_spec_witness :
    Constraint.flatten E0 (Constraint.And (cK 3) (cK 0)) s0 =
      ((Except.ok (R1CS.LinearCombination.add (lcK 3)
          (R1CS.LinearCombination.smul (E0.oracle s0.challengeCtr) (lcK 0)),
        some (3 + E0.oracle s0.challengeCtr * 0))),
       { s0 with challengeCtr := s0.challengeCtr + 1 }) :=
  (Constraint.flatten_And_spec E0 (cK 3) (cK 0) s0 s0 s0 (lcK 3) (lcK 0) 3 0 rfl rfl).1

/-- C5: given the two child flattening results (a, some av) and (b, some bv),
flattening Or(c1, c2) allocates exactly one multiplication gate with left
input a and right input b, returns the gate output wire as the combination
with assignment av * bv; that assignment is zero exactly when av or bv is
zero and non-zero exactly when both are non-zero. -/
theorem Constraint.flatten_Or_spec (E : Engine F) (c1 c2 : Constraint F)
    (s s1 s2 : CSState F) (a b : R1CS.LinearCombination F) (av bv : F)
    (h1 : Constraint.flatten E c1 s = ((Except.ok (a, some av)), s1))
    (h2 : Constraint.flatten E c2 s1 = ((Except.ok (b, some bv)), s2)) :
    Constraint.flatten E (Constraint.Or c1 c2) s =
      ((Except.ok (R1CS.LinearCombination.ofVar
          (R1CS.Variable.MultiplierOutput s2.gates.length),
        some (av * bv))),
       { s2 with gates := s2.gates ++ [GateAlloc.multiply a b] })
    ∧ (av * bv = 0 ↔ (av = 0 ∨ bv = 0))
    ∧ (av * bv ≠ 0 ↔ (av ≠ 0 ∧ bv ≠ 0)) := by
  refine ⟨?_, mul_eq_zero, ?_⟩
  · simp only [Constraint.flatten, h1, h2, CSState.multiply]
    rfl
  · rw [mul_ne_zero_iff]

/-- Witness for C5 over ZMod 5 with children cK 3 and cK 0. -/
theorem Constraint.flatten_Or_spec_witness :
    Constraint.flatten E0 (Constraint.Or (cK 3) (cK 0)) s0 =
      ((Except.ok (R1CS.LinearCombination.ofVar
          (R1CS.Variable.MultiplierOutput s0.gates.length),
        some (3 * 0))),
       { s0 with gates := s0.gates ++ [GateAlloc.multiply (lcK 3) (lcK 0)] }) :=
  (Constraint.flatten_Or_spec E0 (cK 3) (cK 0) s0 s0 s0 (lcK 3) (lcK 0) 3 0 rfl rfl).1

/-- Helper: the full equation of flattening Not(c1) from a child result with
known assignment, under an engine accepting the two fresh allocations. -/
theorem flatten_Not_eq (E : Engine F) (c1 : Constraint F) (s s1 : CSState F)
    (xLc : R1CS.LinearCombination F) (xv : F)
    (hc : Constraint.flatten E c1 s = ((Except.ok (xLc, some xv)), s1))
    (h1 : E.accept s1.gates.length = true)
    (h2 : E.accept (s1.gates.length + 1) = true) :
    Constraint.flatten E (Constraint.Not c1) s =
      ((Except.ok (R1CS.LinearCombination.ofVar
          (R1CS.Variable.MultiplierRight s1.gates.length),
        some (if xv = 0 then (1 : F) else 0))),
       { s1 with
         gates := s1.gates ++
           [GateAlloc.allocMult (some (xv, if xv = 0 then (1 : F) else 0)),
            GateAlloc.allocMult (some (xv, (if xv = 0 then (1 : F) else xv)⁻¹))],
         constraints := s1.constraints ++
           [R1CS.LinearCombination.sub
              (R1CS.LinearCombination.ofVar
                (R1CS.Variable.MultiplierLeft s1.gates.length)) xLc,
            R1CS.LinearCombination.sub
              (R1CS.LinearCombination.ofVar
                (R1CS.Variable.MultiplierLeft s1.gates.length))
              (R1CS.LinearCombination.ofVar
                (R1CS.Variable.MultiplierLeft (s1.gates.length + 1))),
            R1CS.LinearCombination.ofVar
              (R1CS.Variable.MultiplierOutput s1.gates.length),
            R1CS.LinearCombination.add
              (R1CS.LinearCombination.sub
                (R1CS.LinearCombination.ofVar
                  (R1CS.Variable.MultiplierOutput (s1.gates.length + 1)))
                (R1CS.LinearCombination.ofScalar 1))
              (R1CS.LinearCombination.ofVar
                (R1CS.Variable.MultiplierRight s1.gates.length))] }) := by
  simp only [Constraint.flatten, hc, CSState.allocate_multiplier, CSState.constrain,
    List.length_append, List.length_cons, List.length_nil, h1, h2, if_true]
  simp [List.append_assoc]

/-- Helper: the full equation of flattening Not(c1) from a child result with
unknown assignment, under an engine accepting the two fresh allocations. -/
theorem flatten_Not_eq_none (E : Engine F) (c1 : Constraint F) (s s1 : CSState F)
    (xLc : R1CS.LinearCombination F)
    (hc : Constraint.flatten E c1 s = ((Except.ok (xLc, none)), s1))
    (h1 : E.accept s1.gates.length = true)
    (h2 : E.accept (s1.gates.length + 1) = true) :
    Constraint.flatten E (Constraint.Not c1) s =
      ((Except.ok (R1CS.LinearCombination.ofVar
          (R1CS.Variable.MultiplierRight s1.gates.length),
        (none : Option F))),
       { s1 with
         gates := s1.gates ++ [GateAlloc.allocMult none, GateAlloc.allocMult none],
         constraints := s1.constraints ++
           [R1CS.LinearCombination.sub
              (R1CS.LinearCombination.ofVar
                (R1CS.Variable.MultiplierLeft s1.gates.length)) xLc,
            R1CS.LinearCombination.sub
              (R1CS.LinearCombination.ofVar
                (R1CS.Variable.MultiplierLeft s1.gates.length))
              (R1CS.LinearCombination.ofVar
                (R1CS.Variable.MultiplierLeft (s1.gates.length + 1))),
            R1CS.LinearCombination.ofVar
              (R1CS.Variable.MultiplierOutput s1.gates.length),
            R1CS.LinearCombination.add
              (R1CS.LinearCombination.sub
                (R1CS.LinearCombination.ofVar
                  (R1CS.Variable.MultiplierOutput (s1.gates.length + 1)))
                (R1CS.LinearCombination.ofScalar 1))
              (R1CS.LinearCombination.ofVar
                (R1CS.Variable.MultiplierRight s1.gates.length))] }) := by
  simp only [Constraint.flatten, hc, CSState.allocate_multiplier, CSState.constrain,
    List.length_append, List.length_cons, List.length_nil, h1, h2, if_true]
  simp [List.append_assoc]

/-- C1: given a child flattening result (xLc, some xv) and an engine that
accepts the two fresh allocations, flattening Not(c1) allocates exactly two
multiplication gates carrying the wire assignments (xv, y) and (xv, w) with
y the indicator that xv equals 0 and w the inverse helper (1 when xv is 0,
the field inverse of xv otherwise), registers exactly four linear
constraints (gate-1 left wire minus x; gate-1 left wire minus gate-2 left
wire; gate-1 output; gate-2 output minus 1 plus gate-1 right wire), and
returns the gate-1 right wire as the combination with assignment y; the
supplied assignments satisfy xv * y = 0 and xv * w = 1 - y. -/
theorem Constraint.flatten_Not_spec (E : Engine F) (c1 : Constraint F) (s s1 : CSState F)
    (xLc : R1CS.LinearCombination F) (xv : F)
    (hc : Constraint.flatten E c1 s = ((Except.ok (xLc, some xv)), s1))
    (h1 : E.accept s1.gates.length = true)
    (h2 : E.accept (s1.gates.length + 1) = true) :
    Constraint.flatten E (Constraint.Not c1) s =
      ((Except.ok (R1CS.LinearCombination.ofVar
          (R1CS.Variable.MultiplierRight s1.gates.length),
        some (if xv = 0 then (1 : F) else 0))),
       { s1 with
         gates := s1.gates ++
           [GateAlloc.allocMult (some (xv, if xv = 0 then (1 : F) else 0)),
            GateAlloc.allocMult (some (xv, (if xv = 0 then (1 : F) else xv)⁻¹))],
         constraints := s1.constraints ++
           [R1CS.LinearCombination.sub
              (R1CS.LinearCombination.ofVar
                (R1CS.Variable.MultiplierLeft s1.gates.length)) xLc,
            R1CS.LinearCombination.sub
              (R1CS.LinearCombination.ofVar
                (R1CS.Variable.MultiplierLeft s1.gates.length))
              (R1CS.LinearCombination.ofVar
                (R1CS.Variable.MultiplierLeft (s1.gates.length + 1))),
            R1CS.LinearCombination.ofVar
              (R1CS.Variable.MultiplierOutput s1.gates.length),
            R1CS.LinearCombination.add
              (R1CS.LinearCombination.sub
                (R1CS.LinearCombination.ofVar
                  (R1CS.Variable.MultiplierOutput (s1.gates.length + 1)))
                (R1CS.LinearCombination.ofScalar 1))
              (R1CS.LinearCombination.ofVar
                (R1CS.Variable.MultiplierRight s1.gates.length))] })
    ∧ xv * (if xv = 0 then (1 : F) else 0) = 0
    ∧ xv * (if xv = 0 then (1 : F) else xv)⁻¹ = 1 - (if xv = 0 then (1 : F) else 0) := by
  refine ⟨flatten_Not_eq E c1 s s1 xLc xv hc h1 h2, ?_, ?_⟩
  · by_cases hx : xv = 0
    · simp [hx]
    · simp [hx]
  · by_cases hx : xv = 0
    · simp [hx]
    · simp [hx, mul_inv_cancel₀ hx]

/-- Witness for C1 over ZMod 5 with child cK 2, whose assignment is 2. -/
theorem Constraint.flatten_Not_spec_witness :
    (2 : ZMod 5) * (if (2 : ZMod 5) = 0 then (1 : ZMod 5) else 0) = 0
    ∧ (2 : ZMod 5) * (if (2 : ZMod 5) = 0 then (1 : ZMod 5) else 2)⁻¹ =
        1 - (if (2 : ZMod 5) = 0 then (1 : ZMod 5) else 0) :=
  ⟨(Constraint.flatten_Not_spec E0 (cK 2) s0 s0 (lcK 2) 2 rfl rfl rfl).2.1,
   (Constraint.flatten_Not_spec E0 (cK 2) s0 s0 (lcK 2) 2 rfl rfl rfl).2.2⟩

/-- C4 counterexample: over ZMod 5 take the boolean witness x = 1. Flattening
Not(Eq(x, 0)) yields assignment 0, not x = 1 as the claim states: the Not
gadget returns the indicator that the child assignment equals zero. -/
theorem Constraint.not_involution_counterexample :
    flattenAssignment E0 (Constraint.Not (cK 1)) s0 = some (some 0)
    ∧ flattenAssignment E0 (Constraint.Not (cK 1)) s0 ≠ some (some 1) := by
  constructor
  · rfl
  · decide

/-- C4 amended: for a witness x known to be exactly 0 or 1, flattening
Not(Eq(x, 0)) yields assignment 1 - x (the zero indicator of x), and
flattening Not(Not(Eq(x, 0))) yields assignment x — double negation recovers
the original boolean value. -/
theorem Constraint.not_involution_amended (E : Engine F) (e : Expression F) (xv : F)
    (s : CSState F) (hacc : ∀ i, E.accept i = true)
    (he : Expression.eval e = some xv) (hx : xv = 0 ∨ xv = 1) :
    flattenAssignment E (Constraint.Not (Constraint.Eq e (Expression.Constant 0))) s =
      some (some (1 - xv))
    ∧ flattenAssignment E (Constraint.Not (Constraint.Not
        (Constraint.Eq e (Expression.Constant 0)))) s = some (some xv) := by
  have hEq : Constraint.flatten E (Constraint.Eq e (Expression.Constant 0)) s =
      ((Except.ok (R1CS.LinearCombination.sub (Expression.to_r1cs_lc e)
          (Expression.to_r1cs_lc (Expression.Constant 0)), some xv)), s) := by
    have h0 : Expression.eval (Expression.Constant (0 : F)) = some 0 := rfl
    simp [Constraint.flatten, he, h0, ScalarWitness.to_scalar, sub_zero]
  have hNot := flatten_Not_eq E (Constraint.Eq e (Expression.Constant 0)) s s _ xv hEq
    (hacc _) (hacc _)
  have hNot2 := flatten_Not_eq E (Constraint.Not (Constraint.Eq e (Expression.Constant 0)))
    s _ _ (if xv = 0 then (1 : F) else 0) hNot (hacc _) (hacc _)
  rcases hx with rfl | rfl
  · constructor
    · simp only [flattenAssignment, hNot]
      simp
    · simp only [flattenAssignment, hNot2]
      simp [one_ne_zero]
  · constructor
    · simp only [flattenAssignment, hNot]
      simp [one_ne_zero]
    · simp only [flattenAssignment, hNot2]
      simp [one_ne_zero]

/-- Witness for the amended C4 over ZMod 5 at x = 1. -/
theorem Constraint.not_involution_amended_witness :
    flattenAssignment E0 (Constraint.Not (Constraint.Eq
        (Expression.Constant (1 : ZMod 5)) (Expression.Constant 0))) s0 =
      some (some (1 - 1))
    ∧ flattenAssignment E0 (Constraint.Not (Constraint.Not (Constraint.Eq
        (Expression.Constant (1 : ZMod 5)) (Expression.Constant 0)))) s0 =
      some (some 1) :=
  Constraint.not_involution_amended E0 (Expression.Constant 1) 1 s0
    (fun _ => rfl) rfl (Or.inr rfl)

/-- C3: if the deferred flattening computation registered by verify fails
(for instance because the engine rejects a multiplier allocation inside a Not
branch), the engine state observed by the caller is exactly the state before
the verify call: no gate and no linear constraint of that call remains
registered — the deferred computation succeeds as a whole or leaves nothing
behind. -/
theorem Constraint.verify_atomic_on_failure (E : Engine F) (c : Constraint F)
    (s : CSState F) (e : R1CSError)
    (h : (engineRunDeferred E c s).1 = Except.error e) :
    (engineRunDeferred E c s).2 = s
    ∧ (engineRunDeferred E c s).2.gates = s.gates
    ∧ (engineRunDeferred E c s).2.constraints = s.constraints := by
  unfold engineRunDeferred at h ⊢
  rcases hcl : Constraint.verifyClosure E c s with ⟨r, s1⟩
  rw [hcl] at h
  cases r with
  | error e1 => exact ⟨rfl, rfl, rfl⟩
  | ok u => simp at h

/-- Witness for C3 over ZMod 5: a rejecting engine fails the deferred
computation of Not(cK 0) and leaves the empty state untouched. -/
theorem Constraint.verify_atomic_on_failure_witness :
    (engineRunDeferred Ereject (Constraint.Not (cK 0)) s0).1 =
        Except.error R1CSError.rejected
    ∧ (engineRunDeferred Ereject (Constraint.Not (cK 0)) s0).2 = s0 :=
  ⟨rfl,
   (Constraint.verify_atomic_on_failure Ereject (Constraint.Not (cK 0)) s0
       R1CSError.rejected rfl).1⟩

/-- Helper: evaluation of a linear-combination expression returns exactly its
stored assignment. -/
theorem Expression.eval_lc (ts : List (R1CS.Variable × F)) (a : Option (ScalarWitness F)) :
    Expression.eval (Expression.LinearCombination ts a) = a := by
  cases a with
  | some a0 => rfl
  | none => rfl

/-- Helper: an expression with an unknown assignment evaluates to none. -/
theorem Expression.eval_none_of_hasUnknown {e : Expression F}
    (h : Expression.hasUnknown e = true) : Expression.eval e = none := by
  cases e with
  | Constant a => simp [Expression.hasUnknown] at h
  | LinearCombination ts a =>
    cases a with
    | some a0 => simp [Expression.hasUnknown] at h
    | none => rfl

/-- Helper: under an engine accepting every allocation, flattening always
succeeds, and the returned assignment is none whenever some expression in the
tree has an unknown assignment. -/
theorem flatten_total_aux (E : Engine F) (hacc : ∀ i, E.accept i = true)
    (c : Constraint F) :
    ∀ s : CSState F, ∃ lc oa s',
      Constraint.flatten E c s = ((Except.ok (lc, oa)), s')
      ∧ (Constraint.hasUnknown c = true → oa = none) := by
  induction c with
  | Eq e1 e2 =>
    intro s
    refine ⟨_, _, s, rfl, ?_⟩
    intro hu
    simp only [Constraint.hasUnknown, Bool.or_eq_true] at hu
    rcases hu with hu | hu
    · rw [Expression.eval_none_of_hasUnknown hu]
      rfl
    · rw [Expression.eval_none_of_hasUnknown hu]
      cases h1 : Expression.eval e1 with
      | none => rfl
      | some x => rfl
  | And c1 c2 ih1 ih2 =>
    intro s
    obtain ⟨a, oa1, s1, hf1, hu1⟩ := ih1 s
    obtain ⟨b, oa2, s2, hf2, hu2⟩ := ih2 s1
    have heq : Constraint.flatten E (Constraint.And c1 c2) s =
        ((Except.ok (R1CS.LinearCombination.add a
            (R1CS.LinearCombination.smul (E.oracle s2.challengeCtr) b),
          oa1.bind fun a0 => oa2.map fun b0 => a0 + E.oracle s2.challengeCtr * b0)),
         { s2 with challengeCtr := s2.challengeCtr + 1 }) := by
      simp only [Constraint.flatten, hf1, hf2, CSState.challenge_scalar]
    refine ⟨_, _, _, heq, ?_⟩
    intro hu
    simp only [Constraint.hasUnknown, Bool.or_eq_true] at hu
    rcases hu with hu | hu
    · rw [hu1 hu]
      rfl
    · rw [hu2 hu]
      cases oa1 with
      | none => rfl
      | some a0 => rfl
  | Or c1 c2 ih1 ih2 =>
    intro s
    obtain ⟨a, oa1, s1, hf1, hu1⟩ := ih1 s
    obtain ⟨b, oa2, s2, hf2, hu2⟩ := ih2 s1
    have heq : Constraint.flatten E (Constraint.Or c1 c2) s =
        ((Except.ok (R1CS.LinearCombination.ofVar
            (R1CS.Variable.MultiplierOutput s2.gates.length),
          oa1.bind fun a0 => oa2.map fun b0 => a0 * b0)),
         { s2 with gates := s2.gates ++ [GateAlloc.multiply a b] }) := by
      simp only [Constraint.flatten, hf1, hf2, CSState.multiply]
    refine ⟨_, _, _, heq, ?_⟩
    intro hu
    simp only [Constraint.hasUnknown, Bool.or_eq_true] at hu
    rcases hu with hu | hu
    · rw [hu1 hu]
      rfl
    · rw [hu2 hu]
      cases oa1 with
      | none => rfl
      | some a0 => rfl
  | Not c1 ih =>
    intro s
    obtain ⟨xlc, oa, s1, hf, hu⟩ := ih s
    cases oa with
    | some x =>
      exact ⟨_, _, _, flatten_Not_eq E c1 s s1 xlc x hf (hacc _) (hacc _),
        fun h => absurd (hu h) (by simp)⟩
    | none =>
      exact ⟨_, _, _, flatten_Not_eq_none E c1 s s1 xlc hf (hacc _) (hacc _),
        fun h => rfl⟩

/-- C9: unknown assignments propagate as soft failures: a linear combination
with an unknown assignment evaluates to none rather than raising an error;
add, neg and multiply all propagate none to the result assignment; and under
an engine that accepts every allocation, flattening any constraint shape
still succeeds structurally, returning an assignment of none whenever some
underlying assignment is unknown. -/
theorem Constraint.unknown_propagation (E : Engine F) (hacc : ∀ i, E.accept i = true) :
    (∀ ts : List (R1CS.Variable × F),
      Expression.eval (Expression.LinearCombination ts none) = none)
    ∧ (∀ e1 e2 : Expression F, Expression.eval e1 = none ∨ Expression.eval e2 = none →
        Expression.eval (Expression.add e1 e2) = none)
    ∧ (∀ e : Expression F, Expression.eval e = none →
        Expression.eval (Expression.neg e) = none)
    ∧ (∀ (e1 e2 : Expression F) (s : CSState F),
        Expression.eval e1 = none ∨ Expression.eval e2 = none →
        Expression.eval (Expression.multiply e1 e2 s).1 = none)
    ∧ (∀ (c : Constraint F) (s : CSState F), ∃ lc oa s',
        Constraint.flatten E c s = ((Except.ok (lc, oa)), s')
        ∧ (Constraint.hasUnknown c = true → oa = none)) := by
  refine ⟨fun ts => rfl, ?_, ?_, ?_, fun c s => flatten_total_aux E hacc c s⟩
  · intro e1 e2 h
    cases e1 with
    | Constant a =>
      cases e2 with
      | Constant b =>
        rcases h with h | h <;> simp [Expression.eval] at h
      | LinearCombination ts b =>
        rcases h with h | h
        · simp [Expression.eval] at h
        · rw [Expression.eval_lc] at h
          simp [Expression.add, Expression.eval_lc, h]
    | LinearCombination ts a =>
      cases e2 with
      | Constant b =>
        rcases h with h | h
        · rw [Expression.eval_lc] at h
          simp [Expression.add, Expression.eval_lc, h]
        · simp [Expression.eval] at h
      | LinearCombination ts2 b =>
        rcases h with h | h
        · rw [Expression.eval_lc] at h
          simp [Expression.add, Expression.eval_lc, h]
        · rw [Expression.eval_lc] at h
          cases a with
          | none => simp [Expression.add, Expression.eval_lc, h]
          | some a0 => simp [Expression.add, Expression.eval_lc, h]
  · intro e h
    cases e with
    | Constant a => simp [Expression.eval] at h
    | LinearCombination ts a =>
      rw [Expression.eval_lc] at h
      simp [Expression.neg, Expression.eval_lc, h]
  · intro e1 e2 s h
    cases e1 with
    | Constant a =>
      cases e2 with
      | Constant b =>
        rcases h with h | h <;> simp [Expression.eval] at h
      | LinearCombination ts b =>
        rcases h with h | h
        · simp [Expression.eval] at h
        · rw [Expression.eval_lc] at h
          simp [Expression.multiply, Expression.eval_lc, h]
    | LinearCombination ts a =>
      cases e2 with
      | Constant b =>
        rcases h with h | h
        · rw [Expression.eval_lc] at h
          simp [Expression.multiply, Expression.eval_lc, h]
        · simp [Expression.eval] at h
      | LinearCombination ts2 b =>
        rcases h with h | h
        · rw [Expression.eval_lc] at h
          simp [Expression.multiply, Expression.eval_lc, h]
        · rw [Expression.eval_lc] at h
          cases a with
          | none => simp [Expression.multiply, Expression.eval_lc, h]
          | some a0 => simp [Expression.multiply, Expression.eval_lc, h]

/-- Witness for C9 over ZMod 5: the accept-all engine and an empty linear
combination with unknown assignment. -/
theorem Constraint.unknown_propagation_witness :
    Expression.eval (Expression.LinearCombination ([] : List (R1CS.Variable × ZMod 5)) none)
      = none :=
  (Constraint.unknown_propagation E0 (fun _ => rfl)).1 []

/-- C10: verify performs no engine effect eagerly: it only registers the
deferred computation, leaving the gates, the registered linear constraints
and the challenge counter of the engine untouched; every flattening effect
happens inside the deferred computation when the engine later runs it. -/
theorem Constraint.verify_defers (c : Constraint F) (ps : ProverState F) :
    Constraint.verify c ps = ((Except.ok ()), { ps with deferred := ps.deferred ++ [c] })
    ∧ (Constraint.verify c ps).2.cs.gates = ps.cs.gates
    ∧ (Constraint.verify c ps).2.cs.constraints = ps.cs.constraints
    ∧ (Constraint.verify c ps).2.cs.challengeCtr = ps.cs.challengeCtr :=
  ⟨rfl, rfl, rfl, rfl⟩

end ZkVM
